import Mathlib

/-
Verification of the suggestion-and-rendering pipeline of the
MultiDomain_DataAnalysis repository (services/viz_service.py,
services/manual_viz_service.py, services/viz_cache.py,
services/stats_service.py), via a shallow embedding in Lean 4.

Modelling conventions:
  * A pandas DataFrame is a list of columns; a column carries its name, its
    pandas dtype (restricted to the dtype classes the code distinguishes:
    numeric, datetime64, object, category) and its cells.
  * Python `None` becomes `Option.none`; Python exceptions become
    `Except.error` with an explicit error kind.
  * Values pulled out of parsed JSON are modelled as strings or `none`;
    a JSON value of another type would fail every downstream test of the
    code (column-membership, chart-type whitelist) exactly as an unknown
    string does, so nothing is lost.
  * External library calls (the Groq chat completion, `json.loads`,
    `pd.to_datetime` element parsing, the seaborn drawing calls and
    `savefig`) are parameters of the embedded functions, so theorems
    quantify over every possible behaviour of those collaborators.
-/

namespace MultiViz

/-! ## Basic string helpers (Python `in`, `.lower()`, `.strip()`) -/

/-- Whether `pat` occurs as a prefix of `l` (helper for substring search). -/
def listStartsWith : List Char → List Char → Bool
  | _, [] => true
  | [], _ :: _ => false
  | a :: as, b :: bs => a = b && listStartsWith as bs

/-- Whether `pat` occurs as a contiguous subsequence of the list. -/
def listContainsSeq (pat : List Char) : List Char → Bool
  | [] => pat.isEmpty
  | c :: rest => listStartsWith (c :: rest) pat || listContainsSeq pat rest

/-- Python `pat in s` on strings. -/
def strContains (s pat : String) : Bool :=
  listContainsSeq pat.toList s.toList

/-- Python `s.lower()` (ASCII case folding; every string the code under
verification lowercases is ASCII). -/
def strLower (s : String) : String :=
  String.mk (s.toList.map Char.toLower)

/-- Python `s.strip()`: drop leading and trailing whitespace. -/
def strStrip (s : String) : String :=
  String.mk (((s.toList.dropWhile Char.isWhitespace).reverse.dropWhile
    Char.isWhitespace).reverse)

/-- Python `'date' in col.lower() or 'time' in col.lower()`. -/
def nameHasDateTime (name : String) : Bool :=
  strContains (strLower name) "date" || strContains (strLower name) "time"

/-- Python `'id' in col.lower()`. -/
def nameHasId (name : String) : Bool :=
  strContains (strLower name) "id"

/-! ## Data model: cells, columns, dataframes -/

/-- The pandas dtype classes distinguished by the code under verification. -/
inductive Dtype
  | numeric
  | datetime
  | obj
  | category
deriving DecidableEq, Repr

/-- A cell of a column: missing (`NaN`/`NaT`), a free-form value, or a
parsed timestamp. -/
inductive Cell
  | na
  | str (s : String)
  | time (t : Nat)
deriving DecidableEq, Repr

/-- Python `pd.notna` on a cell. -/
def Cell.notNA : Cell → Bool
  | .na => false
  | _ => true

/-- One dataframe column. -/
structure Column where
  name : String
  dtype : Dtype
  cells : List Cell
deriving DecidableEq, Repr

/-- A dataframe: its columns in order. -/
abbrev Df := List Column

/-- Python `df.columns`. -/
def colNames (df : Df) : List String := df.map (·.name)

/-- Python `series.count()`: number of non-missing cells. -/
def seriesCount (cs : List Cell) : Nat := (cs.filter Cell.notNA).length

/-- Python `series.nunique()`: number of distinct non-missing values. -/
def seriesNunique (cs : List Cell) : Nat := ((cs.filter Cell.notNA).dedup).length

/-- Python `df.select_dtypes(include=[np.number]).columns.tolist()`. -/
def numColsOf (df : Df) : List String :=
  (df.filter (fun c => c.dtype = Dtype.numeric)).map (·.name)

/-- Python `df.select_dtypes(include=["object", "category"]).columns.tolist()`. -/
def catColsOf (df : Df) : List String :=
  (df.filter (fun c => c.dtype = Dtype.obj ∨ c.dtype = Dtype.category)).map (·.name)

/-- Python `df.select_dtypes(include=["datetime64[ns]", "datetime64[ns, UTC]"]).columns.tolist()`. -/
def dateColsOf (df : Df) : List String :=
  (df.filter (fun c => c.dtype = Dtype.datetime)).map (·.name)

/-! ## Suggestions and parsed JSON values -/

/-- A cleaned chart suggestion, as produced by the validators and by the
rule-based generator and fallback (a Python dict with all four keys). -/
structure Suggestion where
  chart_type : String
  x : String
  y : Option String
  description : String
deriving DecidableEq, Repr

/-- A raw, untrusted suggestion dict as it comes out of JSON parsing: each
field may be absent or null (both read back as `none` through
`item.get(...)`). -/
structure RawDict where
  chart_type : Option String
  x : Option String
  y : Option String
  description : Option String
deriving DecidableEq, Repr

/-- An element of a raw suggestion list: either a dict or any other JSON
value (which `isinstance(item, dict)` rejects). -/
inductive PyItem
  | dict (d : RawDict)
  | nondict
deriving DecidableEq, Repr

/-- A parsed JSON value as returned by `json.loads`: a list, a dict, or any
other value (string/number/bool/null), the latter tagged with its Python
truthiness. A Python dict is falsy only when empty; the one place
truthiness of a dict could be consulted (`if not raw_suggestions`) leads to
the same final output either way (an empty dict yields no valid suggestion,
so both paths end in the fallback list), so dicts are taken as truthy. -/
inductive PyVal
  | vdict (d : RawDict)
  | vlist (items : List PyItem)
  | vother (truthy : Bool)
deriving DecidableEq, Repr

/-- Python truthiness of a parsed JSON value. -/
def PyVal.truthy : PyVal → Bool
  | .vdict _ => true
  | .vlist items => !items.isEmpty
  | .vother t => t

/-- Python truthiness of `Optional[...]`: `None` is falsy. -/
def truthyOpt : Option PyVal → Bool
  | none => false
  | some v => v.truthy

/-- View a parsed JSON value as an element of a suggestion list. -/
def PyVal.toItem : PyVal → PyItem
  | .vdict d => .dict d
  | _ => .nondict

/-- The dict literal built by the in-repo generators (all four keys
present; used where such a list is fed back into the validator). -/
def Suggestion.toDict (s : Suggestion) : RawDict :=
  ⟨some s.chart_type, some s.x, s.y, some s.description⟩

/-- Python error kinds raised on the modelled paths. -/
inductive PyErr
  | typeError
  | keyError
  | apiError
deriving DecidableEq, Repr

/-! ## The validator `_clean_and_validate_suggestions`

Source: `src/services/viz_service.py` lines 176–227 (with
`max_per_sheet = 12` and an early `break`) and
`src/services/manual_viz_service.py` lines 114–160 (no cap). The two
bodies are letter-for-letter identical apart from the cap, so they share
one loop parameterised by `maxPer`. -/

/-- The key used for de-duplication: `(chart_type, x, y)`. -/
def sugKey (s : Suggestion) : String × String × Option String :=
  (s.chart_type, s.x, s.y)

/-- The body of the validation loop for one item: `continue` becomes
`none`, an accepted item becomes `some` of the cleaned suggestion. The
guards appear in source order:
`if not chart_type or x is None`, `x not in cols`,
`y is not None and y not in cols`, scatter/line require y,
chart-type whitelist, and the `(chart_type, x, y)` de-duplication test. -/
def checkItem (cols : List String) (seen : List (String × String × Option String))
    (d : RawDict) : Option Suggestion :=
  let ct := strLower (strStrip (d.chart_type.getD ""))
  match d.x with
  | none => none
  | some x =>
    if ct = "" then none
    else if x ∉ cols then none
    else if (match d.y with | some yv => decide (yv ∉ cols) | none => false) = true then none
    else if (ct = "scatter" ∨ ct = "line") ∧ d.y = none then none
    else if ct ∉ ["histogram", "scatter", "bar", "countplot", "line"] then none
    else if (ct, x, d.y) ∈ seen then none
    else some ⟨ct, x, d.y, d.description.getD ""⟩

/-- The validation loop: walks the raw list, accumulating `seen` keys and
the `cleaned` output; with `maxPer = some m` it stops (`break`) as soon as
the output reaches `m` entries. -/
def cleanLoop (cols : List String) (maxPer : Option Nat) :
    List PyItem → List (String × String × Option String) → List Suggestion → List Suggestion
  | [], _, acc => acc
  | item :: rest, seen, acc =>
    match item with
    | .nondict => cleanLoop cols maxPer rest seen acc
    | .dict d =>
      match checkItem cols seen d with
      | none => cleanLoop cols maxPer rest seen acc
      | some e =>
        let acc' := acc ++ [e]
        match maxPer with
        | some m => if m ≤ acc'.length then acc' else cleanLoop cols maxPer rest (sugKey e :: seen) acc'
        | none => cleanLoop cols maxPer rest (sugKey e :: seen) acc'

/-- `_clean_and_validate_suggestions(df, raw_suggestions)`: returns `[]`
unless the input is a (truthy) list, then runs the loop. -/
def _clean_and_validate_suggestions (df : Df) (raw : Option PyVal) (maxPer : Option Nat) :
    List Suggestion :=
  match raw with
  | some (.vlist items) => cleanLoop (colNames df) maxPer items [] []
  | _ => []

/-- The validator as defined in `src/services/viz_service.py` (cap 12). -/
def viz_clean_and_validate (df : Df) (raw : Option PyVal) : List Suggestion :=
  _clean_and_validate_suggestions df raw (some 12)

/-- The validator as defined in `src/services/manual_viz_service.py` (no cap). -/
def manual_clean_and_validate (df : Df) (raw : Option PyVal) : List Suggestion :=
  _clean_and_validate_suggestions df raw none

/-! ## C1: invariants of the validator output -/

/-- The invariant claimed for each surviving suggestion: its columns exist
in the table, its chart type is recognized, and scatter/line carry a y. -/
def SugOK (cols : List String) (s : Suggestion) : Prop :=
  s.x ∈ cols ∧
  (∀ yv, s.y = some yv → yv ∈ cols) ∧
  s.chart_type ∈ ["histogram", "scatter", "bar", "countplot", "line"] ∧
  ((s.chart_type = "scatter" ∨ s.chart_type = "line") → s.y ≠ none)

theorem checkItem_ok {cols seen d e} (h : checkItem cols seen d = some e) :
    SugOK cols e ∧ sugKey e ∉ seen := by
  unfold checkItem at h
  rcases d with ⟨ct?, x?, y?, desc?⟩
  cases x? with
  | none => simp at h
  | some x =>
    simp only at h
    split_ifs at h with h1 h2 h3 h4 h5 h6 <;> try exact Option.noConfusion h
    have heq := Option.some.inj h
    subst heq
    refine ⟨⟨h2, ?_, h5, ?_⟩, h6⟩
    · intro yv hyv
      simp only at hyv
      subst hyv
      simpa using h3
    · intro hct hy
      exact h4 ⟨hct, hy⟩

theorem cleanLoop_invariant (cols : List String) (maxPer : Option Nat) :
    ∀ (items : List PyItem) (seen : List (String × String × Option String))
      (acc : List Suggestion),
      (∀ s ∈ acc, SugOK cols s) →
      ((acc.map sugKey).Nodup) →
      (∀ s ∈ acc, sugKey s ∈ seen) →
      (∀ s ∈ cleanLoop cols maxPer items seen acc, SugOK cols s) ∧
        ((cleanLoop cols maxPer items seen acc).map sugKey).Nodup := by
  intro items
  induction items with
  | nil => intro seen acc h1 h2 _; simpa [cleanLoop] using ⟨h1, h2⟩
  | cons item rest ih =>
    intro seen acc h1 h2 h3
    match item with
    | .nondict => simpa [cleanLoop] using ih seen acc h1 h2 h3
    | .dict d =>
      rcases he : checkItem cols seen d with _ | e
      · simpa [cleanLoop, he] using ih seen acc h1 h2 h3
      · have hok := checkItem_ok he
        have h1' : ∀ s ∈ acc ++ [e], SugOK cols s := by
          intro s hs
          rcases List.mem_append.1 hs with hs | hs
          · exact h1 s hs
          · rcases List.mem_singleton.1 hs with rfl; exact hok.1
        have hnotin : sugKey e ∉ acc.map sugKey := by
          intro hmem
          rcases List.mem_map.1 hmem with ⟨s, hs, hkey⟩
          exact hok.2 (hkey ▸ h3 s hs)
        have h2' : ((acc ++ [e]).map sugKey).Nodup := by
          rw [List.map_append]
          refine List.Nodup.append h2 (List.nodup_singleton _) ?_
          intro a ha hb
          rcases List.mem_singleton.1 hb with rfl
          exact hnotin ha
        have h3' : ∀ s ∈ acc ++ [e], sugKey s ∈ sugKey e :: seen := by
          intro s hs
          rcases List.mem_append.1 hs with hs | hs
          · exact List.mem_cons_of_mem _ (h3 s hs)
          · rcases List.mem_singleton.1 hs with rfl; exact List.mem_cons_self _ _
        match maxPer with
        | none => simpa [cleanLoop, he] using ih _ _ h1' h2' h3'
        | some m =>
          by_cases hm : m ≤ acc.length + 1
          · have hm' : m ≤ (acc ++ [e]).length := by simpa using hm
            have hred : cleanLoop cols (some m) (PyItem.dict d :: rest) seen acc = acc ++ [e] := by
              simp [cleanLoop, he, hm, hm']
            rw [hred]
            exact ⟨h1', h2'⟩
          · have hm' : ¬ m ≤ (acc ++ [e]).length := by simpa using hm
            simpa [cleanLoop, he, hm, hm'] using ih _ _ h1' h2' h3'

/-- C1. Every suggestion surviving either validator references only column
names of the table (both `x` and, when present, `y`), carries one of the
five recognized chart types, has a non-null `y` whenever it is a scatter or
line chart, and no two survivors share the `(chart_type, x, y)` key. -/
theorem C1_validator_invariants (df : Df) (raw : Option PyVal) :
    ((∀ s ∈ viz_clean_and_validate df raw, SugOK (colNames df) s) ∧
      ((viz_clean_and_validate df raw).map sugKey).Nodup) ∧
    ((∀ s ∈ manual_clean_and_validate df raw, SugOK (colNames df) s) ∧
      ((manual_clean_and_validate df raw).map sugKey).Nodup) := by
  constructor
  · rcases raw with _ | v
    · simp [viz_clean_and_validate, _clean_and_validate_suggestions]
    · rcases v with d | items | t
      · simp [viz_clean_and_validate, _clean_and_validate_suggestions]
      · simpa [viz_clean_and_validate, _clean_and_validate_suggestions] using
          cleanLoop_invariant (colNames df) (some 12) items [] [] (by simp) (by simp) (by simp)
      · simp [viz_clean_and_validate, _clean_and_validate_suggestions]
  · rcases raw with _ | v
    · simp [manual_clean_and_validate, _clean_and_validate_suggestions]
    · rcases v with d | items | t
      · simp [manual_clean_and_validate, _clean_and_validate_suggestions]
      · simpa [manual_clean_and_validate, _clean_and_validate_suggestions] using
          cleanLoop_invariant (colNames df) none items [] [] (by simp) (by simp) (by simp)
      · simp [manual_clean_and_validate, _clean_and_validate_suggestions]

/-! ## Type inference

`get_column_datatype` (src/services/manual_viz_service.py lines 47–68)
and the `type` field of `get_statistical_summary`
(src/services/stats_service.py lines 6–57). Only the kind selection of
the statistical summary is embedded; its numeric/frequency statistics do
not bear on any claim. -/

/-- Kind assigned to one column by `get_column_datatype`: numeric dtype
first, then datetime (by dtype or by a name containing `date`/`time`),
then the `count == nunique` key test combined with the `id` name test. -/
def get_column_datatype_one (c : Column) : String :=
  if c.dtype = Dtype.numeric then "numerical"
  else if c.dtype = Dtype.datetime ∨ nameHasDateTime c.name = true then "datetime"
  else if seriesCount c.cells = seriesNunique c.cells then
    if nameHasId c.name = true then "primary_key" else "distinct_categorical"
  else
    if nameHasId c.name = true then "foreign_key" else "categorical"

/-- Kind assigned to one column by `get_statistical_summary`: numeric
dtype first, then the `count == nunique` key test, then the `id` name
test, and only then the `date`/`time` name test (never the dtype). -/
def get_statistical_summary_kind (c : Column) : String :=
  if c.dtype = Dtype.numeric then "numerical"
  else if seriesCount c.cells = seriesNunique c.cells then
    if nameHasId c.name = true then "primary_key" else "distinct_categorical"
  else if nameHasId c.name = true then "foreign_key"
  else if nameHasDateTime c.name = true then "datetime"
  else "categorical"

/-! ## The rule-based generator `generate_manual_suggestions`

Source: `src/services/manual_viz_service.py` lines 70–112. The Python
code keys its `datatype` dict by column name; tables read from a sheet
have pairwise distinct column names, and the theorems below assume that,
so the per-column embedding coincides with the dict lookup. -/

/-- All ordered pairs `(l[i], l[j])` with `i < j`, in the nested-loop
order of the source. -/
def upperPairs : List String → List (String × String)
  | [] => []
  | a :: rest => rest.map (fun b => (a, b)) ++ upperPairs rest

/-- Python `[key for key, value in datatype.items() if value == "numerical"]`
(the `numerical` list of `generate_manual_suggestions`). -/
def numericalNames (df : Df) : List String :=
  (df.filter (fun c => get_column_datatype_one c = "numerical")).map (·.name)

/-- The `date` list of `generate_manual_suggestions`. -/
def dateNames (df : Df) : List String :=
  (df.filter (fun c => get_column_datatype_one c = "datetime")).map (·.name)

/-- `generate_manual_suggestions(df)`: bar for categorical columns and
histogram for numerical columns (in column order), then a scatter for
every ordered pair of numerical columns, then — only when exactly one
datetime column exists — a line per numerical column over that column. -/
def generate_manual_suggestions (df : Df) : List Suggestion :=
  let part1 := df.filterMap (fun c =>
    if get_column_datatype_one c = "categorical" then
      some ⟨"bar", c.name, none, "Count of " ++ c.name⟩
    else if get_column_datatype_one c = "numerical" then
      some ⟨"histogram", c.name, none, "Distribution of " ++ c.name⟩
    else none)
  let scatters := (upperPairs (numericalNames df)).map (fun p =>
    (⟨"scatter", p.1, some p.2,
      "Relationship between " ++ p.1 ++ " and " ++ p.2⟩ : Suggestion))
  let lines :=
    match dateNames df with
    | [d] => (numericalNames df).map (fun n =>
        (⟨"line", d, some n, "Trend of " ++ n ++ " over date"⟩ : Suggestion))
    | _ => []
  part1 ++ scatters ++ lines

/-- The line proposals the claim predicts: one per numerical column when
exactly one datetime column exists, none otherwise. -/
def expectedLineSugs (df : Df) : List Suggestion :=
  match dateNames df with
  | [d] => (numericalNames df).map (fun n =>
      (⟨"line", d, some n, "Trend of " ++ n ++ " over date"⟩ : Suggestion))
  | _ => []

/-- The example table of the claim: one datetime-named column and two
numerical columns. -/
def exC4df : Df :=
  [⟨"order_date", Dtype.obj, [Cell.str "2021-01-01", Cell.str "2021-01-02"]⟩,
   ⟨"amount", Dtype.numeric, [Cell.str "10", Cell.str "20"]⟩,
   ⟨"qty", Dtype.numeric, [Cell.str "1", Cell.str "2"]⟩]

/-- C4. The rule-based generator emits line proposals exactly when the
table has exactly one datetime column (one proposal per numerical column,
x the datetime column); on the example table it produces exactly the five
claimed proposals, without duplicates. -/
theorem C4_rule_based_generator :
    (∀ df : Df, (colNames df).Nodup →
      (generate_manual_suggestions df).filter (fun s => s.chart_type = "line") =
        expectedLineSugs df) ∧
    (generate_manual_suggestions exC4df =
      [⟨"histogram", "amount", none, "Distribution of amount"⟩,
       ⟨"histogram", "qty", none, "Distribution of qty"⟩,
       ⟨"scatter", "amount", some "qty", "Relationship between amount and qty"⟩,
       ⟨"line", "order_date", some "amount", "Trend of amount over date"⟩,
       ⟨"line", "order_date", some "qty", "Trend of qty over date"⟩] ∧
      (generate_manual_suggestions exC4df).Nodup) := by
  constructor
  · intro df _hnodup
    simp only [generate_manual_suggestions, List.filter_append]
    have h1 : (df.filterMap (fun c =>
        if get_column_datatype_one c = "categorical" then
          some (⟨"bar", c.name, none, "Count of " ++ c.name⟩ : Suggestion)
        else if get_column_datatype_one c = "numerical" then
          some (⟨"histogram", c.name, none, "Distribution of " ++ c.name⟩ : Suggestion)
        else none)).filter (fun s => s.chart_type = "line") = [] := by
      rw [List.filter_eq_nil_iff]
      intro s hs
      rcases List.mem_filterMap.1 hs with ⟨c, _, hc⟩
      split_ifs at hc with hcat hnum
      · cases Option.some.inj hc; simp
      · cases Option.some.inj hc; simp
    have h2 : ((upperPairs (numericalNames df)).map (fun p =>
        (⟨"scatter", p.1, some p.2,
          "Relationship between " ++ p.1 ++ " and " ++ p.2⟩ : Suggestion))).filter
          (fun s => s.chart_type = "line") = [] := by
      rw [List.filter_eq_nil_iff]
      intro s hs
      rcases List.mem_map.1 hs with ⟨p, _, hp⟩
      cases hp; simp
    have h3 : ∀ lns : List Suggestion, (∀ s ∈ lns, s.chart_type = "line") →
        lns.filter (fun s => s.chart_type = "line") = lns := by
      intro lns hl
      rw [List.filter_eq_self]
      intro s hs
      simp [hl s hs]
    rw [h1, h2]
    rcases hd : dateNames df with _ | ⟨d, rest⟩
    · simp [expectedLineSugs, hd]
    · rcases rest with _ | ⟨d2, rest2⟩
      · simp only [expectedLineSugs, hd]
        rw [h3]
        · simp
        · intro s hs
          rcases List.mem_map.1 hs with ⟨n, _, hn⟩
          cases hn; rfl
      · simp [expectedLineSugs, hd]
  · constructor
    · decide
    · decide

/-- A witness instantiating the universally quantified half of C4 at the
example table. -/
theorem C4_rule_based_generator_witness :
    (colNames exC4df).Nodup ∧
    (generate_manual_suggestions exC4df).filter (fun s => s.chart_type = "line") =
      expectedLineSugs exC4df :=
  ⟨by decide, C4_rule_based_generator.1 exC4df (by decide)⟩

/-! ## C9: the two kind assignments disagree -/

/-- A fully-unique free-form column whose name contains `date`. -/
def exC9col : Column :=
  ⟨"order_date", Dtype.obj, [Cell.str "2021-01-01", Cell.str "2021-01-02"]⟩

/-- C9 counterexample. The Type Inferencer classifies the column
`order_date` (object dtype, all values distinct) as `datetime`, but the
statistical summary classifies it as `distinct_categorical`: the two
classifiers do not apply the same priority rules. -/
theorem C9_counterexample :
    get_column_datatype_one exC9col = "datetime" ∧
    get_statistical_summary_kind exC9col = "distinct_categorical" ∧
    ¬ get_statistical_summary_kind exC9col = get_column_datatype_one exC9col := by
  decide

/-- C9 (amended). Both classifiers give `numerical` to every numeric
column; and on every non-datetime-like column (dtype not datetime64 and
name containing neither `date` nor `time`) they agree. They can disagree
on datetime-like non-numeric columns, where the summary tests
`count == nunique` and the `id` name before the `date`/`time` name and
ignores the dtype. -/
theorem C9_amended_kinds_agree (c : Column) :
    (c.dtype = Dtype.numeric →
      get_statistical_summary_kind c = "numerical" ∧
        get_column_datatype_one c = "numerical") ∧
    (¬ (c.dtype = Dtype.datetime ∨ nameHasDateTime c.name = true) →
      get_statistical_summary_kind c = get_column_datatype_one c) := by
  constructor
  · intro h
    simp [get_statistical_summary_kind, get_column_datatype_one, h]
  · intro h
    push_neg at h
    by_cases hnum : c.dtype = Dtype.numeric
    · simp [get_statistical_summary_kind, get_column_datatype_one, hnum]
    · simp [get_statistical_summary_kind, get_column_datatype_one, hnum, h.1, h.2]

/-- A witness instantiating C9 (amended) at a concrete non-datetime-like
column. -/
theorem C9_amended_kinds_agree_witness :
    (¬ ((⟨"region", Dtype.obj, [Cell.str "a", Cell.str "a", Cell.str "b"]⟩ : Column).dtype
          = Dtype.datetime ∨
        nameHasDateTime (⟨"region", Dtype.obj,
          [Cell.str "a", Cell.str "a", Cell.str "b"]⟩ : Column).name = true)) ∧
    get_statistical_summary_kind ⟨"region", Dtype.obj, [Cell.str "a", Cell.str "a", Cell.str "b"]⟩ =
      get_column_datatype_one ⟨"region", Dtype.obj, [Cell.str "a", Cell.str "a", Cell.str "b"]⟩ :=
  ⟨by decide,
    (C9_amended_kinds_agree ⟨"region", Dtype.obj, [Cell.str "a", Cell.str "a", Cell.str "b"]⟩).2
      (by decide)⟩

/-! ## Date coercion pre-pass `_prepare_df_for_viz`

Source: `src/services/viz_service.py` lines 31–53 (and the identical copy
in `src/services/manual_viz_service.py` lines 23–45). The element-wise
timestamp parsing of `pd.to_datetime(..., errors="coerce")` is the
parameter `parseDate`; an unparsable value coerces to missing (`NaT`).
The float test `parsed_non_null / non_null >= 0.7` is rendered as the
exact rational comparison. -/

/-- The series produced by `pd.to_datetime(df[col], errors="coerce")`. -/
def seriesToDatetime (parseDate : String → Option Nat) (cs : List Cell) : List Cell :=
  cs.map fun c =>
    match c with
    | .na => .na
    | .str s => match parseDate s with | some t => .time t | none => .na
    | .time t => .time t

/-- The per-column body of the preparation loop: a free-form (`object`)
column is replaced by its parsed timestamps when at least 70% of its
non-missing values parse. -/
def _prepare_col (parseDate : String → Option Nat) (c : Column) : Column :=
  if c.dtype = Dtype.obj then
    let parsed := seriesToDatetime parseDate c.cells
    let non_null := (c.cells.filter Cell.notNA).length
    let parsed_non_null := (parsed.filter Cell.notNA).length
    if 0 < non_null ∧ 7 * non_null ≤ 10 * parsed_non_null then
      ⟨c.name, Dtype.datetime, parsed⟩
    else c
  else c

/-- The value computed by `_prepare_df_for_viz` for its (copied) input. -/
def _prepare_df_for_viz (parseDate : String → Option Nat) (df : Df) : Df :=
  df.map (_prepare_col parseDate)

/-! ## Oracle response parsing (`ask_llm_for_visualizations`)

Source: `src/services/viz_service.py` lines 56–133. The Groq client and
the chat-completion call are parameters (`client` present or not; the
call either raises or returns the raw response text), as is `json.loads`
(`jloads`, returning `none` where `json.loads` raises). The prompt
construction only feeds the oracle and is not modelled. -/

/-- The character `[`. -/
def lbrk : Char := Char.ofNat 91

/-- The character `]`. -/
def rbrk : Char := Char.ofNat 93

/-- The character of code point 123 (opening brace). -/
def lbrc : Char := Char.ofNat 123

/-- The character of code point 125 (closing brace). -/
def rbrc : Char := Char.ofNat 125

/-- Python `s.find(c)` (as `Option` instead of `-1`). -/
def str_find (s : String) (c : Char) : Option Nat :=
  s.toList.findIdx? (· = c)

/-- Python `s.rfind(c)` (as `Option` instead of `-1`). -/
def str_rfind (s : String) (c : Char) : Option Nat :=
  match s.toList.reverse.findIdx? (· = c) with
  | none => none
  | some i => some (s.toList.length - 1 - i)

/-- Python `s[a : b + 1]`. -/
def pySlice (s : String) (a b : Nat) : String :=
  String.mk ((s.toList.drop a).take (b + 1 - a))

/-- `ask_llm_for_visualizations`: no client or a failing call yields
`None`; otherwise parse the whole response, then the `[`…`]` substring,
then the `{`…`}` substring wrapped as a one-element list; `None` if all
three fail. -/
def ask_llm_for_visualizations (client : Bool) (groqCall : Except PyErr String)
    (jloads : String → Option PyVal) : Option PyVal :=
  if client = false then none
  else
    match groqCall with
    | .error _ => none
    | .ok raw =>
      match jloads raw with
      | some v => some v
      | none =>
        let listTry : Option PyVal :=
          match str_find raw lbrk, str_rfind raw rbrk with
          | some a, some b => jloads (pySlice raw a b)
          | _, _ => none
        match listTry with
        | some v => some v
        | none =>
          match str_find raw lbrc, str_rfind raw rbrc with
          | some a, some b =>
            match jloads (pySlice raw a b) with
            | some v => some (PyVal.vlist [v.toItem])
            | none => none
          | _, _ => none

/-- C7. When the whole response is unparsable, the bracket path yields
nothing, and the first-`{`-to-last-`}` substring parses as a JSON object,
the parser returns exactly that object wrapped as a one-element list. -/
theorem C7_brace_extraction (raw : String) (jloads : String → Option PyVal)
    (o : RawDict) (a b : Nat)
    (hwhole : jloads raw = none)
    (hnolist : str_find raw lbrk = none ∨ str_rfind raw rbrk = none ∨
      ∀ a' b', str_find raw lbrk = some a' → str_rfind raw rbrk = some b' →
        jloads (pySlice raw a' b') = none)
    (ha : str_find raw lbrc = some a) (hb : str_rfind raw rbrc = some b)
    (hobj : jloads (pySlice raw a b) = some (PyVal.vdict o)) :
    ask_llm_for_visualizations true (Except.ok raw) jloads =
      some (PyVal.vlist [PyItem.dict o]) := by
  unfold ask_llm_for_visualizations
  simp only [Bool.true_eq_false, if_false, hwhole]
  have hlist : (match str_find raw lbrk, str_rfind raw rbrk with
      | some a, some b => jloads (pySlice raw a b)
      | _, _ => none) = (none : Option PyVal) := by
    rcases hnolist with h | h | h
    · rw [h]
    · rw [h]
      rcases str_find raw lbrk with _ | a' <;> rfl
    · rcases hfa : str_find raw lbrk with _ | a'
      · rfl
      · rcases hfb : str_rfind raw rbrk with _ | b'
        · rfl
        · simpa using h a' b' hfa hfb
  rw [hlist, ha, hb]
  simp [hobj, PyVal.toItem]

/-- The dict parsed out of the C7 example response. -/
def exC7obj : RawDict := ⟨some "bar", some "region", none, some "counts"⟩

/-- The C7 example response: a JSON object surrounded by prose, with no
bracketed list anywhere. -/
def exC7raw : String :=
  "Here is a chart suggestion: \x7b\"chart_type\": \"bar\", \"x\": \"region\", \"y\": null, \"description\": \"counts\"\x7d hope this helps."

/-- A concrete `json.loads` behaviour consistent with the C7 example: the
embedded object text parses to the object, everything else it is applied
to (the whole prose-bearing response) fails to parse. -/
def exC7jloads (s : String) : Option PyVal :=
  if s = "\x7b\"chart_type\": \"bar\", \"x\": \"region\", \"y\": null, \"description\": \"counts\"\x7d"
  then some (PyVal.vdict exC7obj) else none

/-- A witness running the C7 theorem on the concrete example response. -/
theorem C7_brace_extraction_witness :
    exC7jloads exC7raw = none ∧
    ask_llm_for_visualizations true (Except.ok exC7raw) exC7jloads =
      some (PyVal.vlist [PyItem.dict exC7obj]) :=
  ⟨by decide,
    C7_brace_extraction exC7raw exC7jloads exC7obj 28 99 (by decide)
      (Or.inl (by decide)) (by decide) (by decide) (by decide)⟩

/-! ## Deterministic fallback and the suggestion path for one table

Source: `src/services/viz_service.py` lines 136–173
(`_fallback_suggestions`) and 230–242 (`_get_viz_suggestions_for_df`). -/

/-- `_fallback_suggestions(df)`: a line chart from the first datetime and
first numeric column when both exist, otherwise a histogram of the first
numeric column; plus a countplot of the first object/category column if
one exists. -/
def _fallback_suggestions (df : Df) : List Suggestion :=
  let numeric_cols := numColsOf df
  let cat_cols := catColsOf df
  let date_cols := dateColsOf df
  let first : List Suggestion :=
    match date_cols, numeric_cols with
    | d :: _, n :: _ =>
      [⟨"line", d, some n, "Trend of '" ++ n ++ "' over time by '" ++ d ++ "'."⟩]
    | _, _ =>
      match numeric_cols with
      | n :: _ =>
        [⟨"histogram", n, none, "Distribution of numeric column '" ++ n ++ "'."⟩]
      | [] => []
  let second : List Suggestion :=
    match cat_cols with
    | c :: _ => [⟨"countplot", c, none, "Category counts for '" ++ c ++ "'."⟩]
    | [] => []
  first ++ second

/-- `_get_viz_suggestions_for_df(df)`: prepare the table, ask the oracle,
fall back when the oracle yields nothing truthy, validate, and fall back
once more when validation leaves nothing. -/
def _get_viz_suggestions_for_df (client : Bool) (groqCall : Except PyErr String)
    (jloads : String → Option PyVal) (parseDate : String → Option Nat) (df : Df) :
    List Suggestion :=
  let df_prepared := _prepare_df_for_viz parseDate df
  let raw := ask_llm_for_visualizations client groqCall jloads
  let raw2 : Option PyVal :=
    if truthyOpt raw then raw
    else some (.vlist ((_fallback_suggestions df_prepared).map (fun s => .dict s.toDict)))
  let cleaned := _clean_and_validate_suggestions df_prepared raw2 (some 12)
  if cleaned.isEmpty then _fallback_suggestions df_prepared else cleaned

/-! ## C5: graceful degradation when the oracle is unavailable -/

/-- A suggestion that passes every guard of the validator unchanged: its
chart type is already stripped and lowercased, non-empty and recognized,
its columns exist, and scatter/line carry a y. -/
def Accepts (cols : List String) (s : Suggestion) : Prop :=
  strLower (strStrip s.chart_type) = s.chart_type ∧
  s.chart_type ≠ "" ∧
  s.x ∈ cols ∧
  (∀ yv, s.y = some yv → yv ∈ cols) ∧
  s.chart_type ∈ ["histogram", "scatter", "bar", "countplot", "line"] ∧
  ((s.chart_type = "scatter" ∨ s.chart_type = "line") → s.y ≠ none)

theorem accepts_intro {cols : List String} {ct x : String} {y : Option String} {d : String}
    (h1 : strLower (strStrip ct) = ct) (h2 : ct ≠ "")
    (h3 : x ∈ cols) (h4 : ∀ yv, y = some yv → yv ∈ cols)
    (h5 : ct ∈ ["histogram", "scatter", "bar", "countplot", "line"])
    (h6 : (ct = "scatter" ∨ ct = "line") → y ≠ none) :
    Accepts cols ⟨ct, x, y, d⟩ :=
  ⟨h1, h2, h3, h4, h5, h6⟩

theorem checkItem_of_accepts {cols seen} {s : Suggestion}
    (ha : Accepts cols s) (hk : sugKey s ∉ seen) :
    checkItem cols seen s.toDict = some s := by
  obtain ⟨hnorm, hne, hx, hy, hmem, hsl⟩ := ha
  rcases s with ⟨ct, x, y, d⟩
  simp only [sugKey] at hk
  simp only at hnorm hne hx hy hmem hsl
  rcases y with _ | yv
  · unfold checkItem Suggestion.toDict
    simp only [Option.getD_some]
    rw [hnorm]
    rw [if_neg hne, if_neg (not_not_intro hx)]
    rw [if_neg (by simp)]
    rw [if_neg (by rintro ⟨hor, _⟩; exact hsl hor rfl)]
    rw [if_neg (not_not_intro hmem), if_neg hk]
  · have hyv : yv ∈ cols := hy yv rfl
    unfold checkItem Suggestion.toDict
    simp only [Option.getD_some]
    rw [hnorm]
    rw [if_neg hne, if_neg (not_not_intro hx)]
    rw [if_neg (by simp [hyv])]
    rw [if_neg (by rintro ⟨_, hno⟩; exact Option.noConfusion hno)]
    rw [if_neg (not_not_intro hmem), if_neg hk]

theorem cleanLoop_all_accepted (cols : List String) (maxPer : Option Nat) :
    ∀ (sugs : List Suggestion) (seen : List (String × String × Option String))
      (acc : List Suggestion),
      (∀ s ∈ sugs, Accepts cols s) →
      ((sugs.map sugKey).Nodup) →
      (∀ s ∈ sugs, sugKey s ∉ seen) →
      (∀ m, maxPer = some m → acc.length + sugs.length ≤ m) →
      cleanLoop cols maxPer (sugs.map (fun s => PyItem.dict s.toDict)) seen acc =
        acc ++ sugs := by
  intro sugs
  induction sugs with
  | nil => intro seen acc _ _ _ _; simp [cleanLoop]
  | cons s rest ih =>
    intro seen acc hacc hnd hfresh hlen
    have hs := checkItem_of_accepts (hacc s (List.mem_cons_self _ _))
      (hfresh s (List.mem_cons_self _ _))
    have hrest_acc : ∀ t ∈ rest, Accepts cols t := fun t ht =>
      hacc t (List.mem_cons_of_mem _ ht)
    have hrest_nd : (rest.map sugKey).Nodup := (List.nodup_cons.1 hnd).2
    have hrest_fresh : ∀ t ∈ rest, sugKey t ∉ sugKey s :: seen := by
      intro t ht
      rw [List.mem_cons]
      rintro (heq | hmem)
      · exact (List.nodup_cons.1 hnd).1 (heq ▸ List.mem_map_of_mem sugKey ht)
      · exact hfresh t (List.mem_cons_of_mem _ ht) hmem
    match maxPer with
    | none =>
      rw [List.map_cons]
      show cleanLoop cols none (PyItem.dict s.toDict :: rest.map _) seen acc = _
      rw [cleanLoop]
      simp only [hs]
      rw [ih (sugKey s :: seen) (acc ++ [s]) hrest_acc hrest_nd hrest_fresh
        (by intro m hm; exact Option.noConfusion hm)]
      simp
    | some m =>
      have hlen' := hlen m rfl
      rw [List.map_cons]
      show cleanLoop cols (some m) (PyItem.dict s.toDict :: rest.map _) seen acc = _
      rw [cleanLoop]
      simp only [hs]
      have h1 : acc.length + (rest.length + 1) ≤ m := by simpa using hlen'
      by_cases hbreak : m ≤ (acc ++ [s]).length
      · have h2 : m ≤ acc.length + 1 := by simpa using hbreak
        have hrest0 : rest = [] := List.eq_nil_of_length_eq_zero (by omega)
        subst hrest0
        rw [if_pos hbreak]
      · rw [if_neg hbreak]
        rw [ih (sugKey s :: seen) (acc ++ [s]) hrest_acc hrest_nd hrest_fresh
          (by
            intro m' hm'
            cases Option.some.inj hm'
            simp only [List.length_append, List.length_cons, List.length_nil]
            omega)]
        simp

theorem name_mem_of_mem_filter {df : Df} {p : Column → Bool} {x : String}
    (h : x ∈ (df.filter p).map (·.name)) : x ∈ colNames df := by
  rcases List.mem_map.1 h with ⟨c, hc, rfl⟩
  exact List.mem_map.2 ⟨c, List.mem_of_mem_filter hc, rfl⟩

theorem fallback_accepts (df : Df) :
    (∀ s ∈ _fallback_suggestions df, Accepts (colNames df) s) ∧
      ((_fallback_suggestions df).map sugKey).Nodup ∧
      (_fallback_suggestions df).length ≤ 2 := by
  have hnum : ∀ (n : String) (ns : List String),
      numColsOf df = n :: ns → n ∈ colNames df := fun n ns hn =>
    name_mem_of_mem_filter (hn ▸ List.mem_cons_self n ns)
  have hdate : ∀ (d : String) (ds : List String),
      dateColsOf df = d :: ds → d ∈ colNames df := fun d ds hd =>
    name_mem_of_mem_filter (hd ▸ List.mem_cons_self d ds)
  have hcitem : ∀ (c : String) (cs : List String),
      catColsOf df = c :: cs → c ∈ colNames df := fun c cs hc =>
    name_mem_of_mem_filter (hc ▸ List.mem_cons_self c cs)
  unfold _fallback_suggestions
  rcases hd : dateColsOf df with _ | ⟨d, ds⟩ <;>
    rcases hn : numColsOf df with _ | ⟨n, ns⟩ <;>
    rcases hc : catColsOf df with _ | ⟨c, cs⟩ <;>
    simp only [hd, hn, hc]
  · exact ⟨by simp, by simp, by simp⟩
  · have hcm : c ∈ colNames df := hcitem c cs hc
    refine ⟨?_, by simp [sugKey], by simp⟩
    intro s hs
    rcases List.mem_singleton.1 hs with rfl
    exact accepts_intro (by decide) (by decide) hcm (by simp) (by decide) (by decide)
  · have hnm : n ∈ colNames df := hnum n ns hn
    refine ⟨?_, by simp [sugKey], by simp⟩
    intro s hs
    rcases List.mem_singleton.1 hs with rfl
    exact accepts_intro (by decide) (by decide) hnm (by simp) (by decide) (by decide)
  · have hnm : n ∈ colNames df := hnum n ns hn
    have hcm : c ∈ colNames df := hcitem c cs hc
    refine ⟨?_, by simp [sugKey], by simp⟩
    intro s hs
    rcases (by simpa using hs : s = _ ∨ s = _) with rfl | rfl
    · exact accepts_intro (by decide) (by decide) hnm (by simp) (by decide) (by decide)
    · exact accepts_intro (by decide) (by decide) hcm (by simp) (by decide) (by decide)
  · exact ⟨by simp, by simp, by simp⟩
  · have hcm : c ∈ colNames df := hcitem c cs hc
    refine ⟨?_, by simp [sugKey], by simp⟩
    intro s hs
    rcases List.mem_singleton.1 hs with rfl
    exact accepts_intro (by decide) (by decide) hcm (by simp) (by decide) (by decide)
  · have hnm : n ∈ colNames df := hnum n ns hn
    have hdm : d ∈ colNames df := hdate d ds hd
    refine ⟨?_, by simp [sugKey], by simp⟩
    intro s hs
    rcases List.mem_singleton.1 hs with rfl
    exact accepts_intro (by decide) (by decide) hdm
      (by intro yv hyv; injection hyv with h; subst h; exact hnm) (by decide)
      (fun _ h => Option.noConfusion h)
  · have hnm : n ∈ colNames df := hnum n ns hn
    have hdm : d ∈ colNames df := hdate d ds hd
    have hcm : c ∈ colNames df := hcitem c cs hc
    refine ⟨?_, by simp [sugKey], by simp⟩
    intro s hs
    rcases (by simpa using hs : s = _ ∨ s = _) with rfl | rfl
    · exact accepts_intro (by decide) (by decide) hdm
        (by intro yv hyv; injection hyv with h; subst h; exact hnm) (by decide)
        (fun _ h => Option.noConfusion h)
    · exact accepts_intro (by decide) (by decide) hcm (by simp) (by decide) (by decide)

theorem ask_llm_none {client : Bool} {groqCall : Except PyErr String}
    {jloads : String → Option PyVal}
    (h : client = false ∨ ∃ e, groqCall = Except.error e) :
    ask_llm_for_visualizations client groqCall jloads = none := by
  rcases h with rfl | ⟨e, rfl⟩
  · rfl
  · cases client <;> rfl

/-- C5. When the oracle is unavailable (no client because no credential
is configured, or the oracle call raises), the suggestion path returns
exactly the deterministic fallback list — a line chart from the first
datetime and first numeric column if both exist, otherwise a histogram of
the first numeric column, plus a countplot of the first object/category
column if one exists — which has at most two entries; the path yields a
value rather than raising. -/
theorem C5_oracle_unavailable (client : Bool) (groqCall : Except PyErr String)
    (jloads : String → Option PyVal) (parseDate : String → Option Nat) (df : Df)
    (h : client = false ∨ ∃ e, groqCall = Except.error e) :
    _get_viz_suggestions_for_df client groqCall jloads parseDate df =
      _fallback_suggestions (_prepare_df_for_viz parseDate df) ∧
    (_fallback_suggestions (_prepare_df_for_viz parseDate df)).length ≤ 2 := by
  obtain ⟨hacc, hnd, hlen⟩ := fallback_accepts (_prepare_df_for_viz parseDate df)
  refine ⟨?_, hlen⟩
  unfold _get_viz_suggestions_for_df
  rw [ask_llm_none h]
  simp only [truthyOpt, Bool.false_eq_true, if_false]
  rw [show _clean_and_validate_suggestions (_prepare_df_for_viz parseDate df)
      (some (.vlist ((_fallback_suggestions (_prepare_df_for_viz parseDate df)).map
        (fun s => .dict s.toDict)))) (some 12) =
      _fallback_suggestions (_prepare_df_for_viz parseDate df) from by
    unfold _clean_and_validate_suggestions
    show cleanLoop (colNames (_prepare_df_for_viz parseDate df)) (some 12)
        ((_fallback_suggestions (_prepare_df_for_viz parseDate df)).map
          (fun s => PyItem.dict s.toDict)) [] [] =
      _fallback_suggestions (_prepare_df_for_viz parseDate df)
    rw [cleanLoop_all_accepted _ _ _ _ _ hacc hnd (by simp) (by
      intro m hm
      cases Option.some.inj hm
      simpa using Nat.le_trans hlen (by omega))]
    simp]
  by_cases hfe : (_fallback_suggestions (_prepare_df_for_viz parseDate df)).isEmpty <;>
    simp [hfe]

/-- The example table for the C5 witness: one numeric and one text
column, no Groq credential configured. -/
def exC5df : Df :=
  [⟨"amount", Dtype.numeric, [Cell.str "10", Cell.str "20"]⟩,
   ⟨"region", Dtype.obj, [Cell.str "a", Cell.str "a"]⟩]

/-- A witness running C5 with no client configured on a concrete table. -/
theorem C5_oracle_unavailable_witness :
    ((false = false) ∨ ∃ e, (Except.ok "" : Except PyErr String) = Except.error e) ∧
    (_get_viz_suggestions_for_df false (Except.ok "") (fun _ => none) (fun _ => none) exC5df =
        _fallback_suggestions (_prepare_df_for_viz (fun _ => none) exC5df) ∧
      (_fallback_suggestions (_prepare_df_for_viz (fun _ => none) exC5df)).length ≤ 2) :=
  ⟨Or.inl rfl,
    C5_oracle_unavailable false (Except.ok "") (fun _ => none) (fun _ => none) exC5df
      (Or.inl rfl)⟩

/-! ## Chart rendering `generate_chart`

Source: `src/services/viz_service.py` lines 245–319 and the identical
copy in `src/services/manual_viz_service.py` lines 174–252. The seaborn
drawing calls are the parameter `draw` (keyed by which call the code
makes), and the buffer/`tight_layout`/`savefig`/encode tail is the
parameter `savefig` (returning the encoded PNG string). The outcome
records the returned value, how many drawing surfaces are left open, and
whether some library call raised (each such exception is caught by the
`try`/`except`). -/

/-- The seaborn drawing call issued by `generate_chart`. -/
inductive DrawCall
  | histplot (x : String)
  | countplot (x : String)
  | countplotDatetimeStr (x : String)
  | scatterplot (x : String) (y : Option String)
  | barplot (x : String) (y : String)
  | lineplot (x : String) (y : Option String)
deriving DecidableEq, Repr

/-- Result of one `generate_chart` call. -/
structure ChartOutcome where
  result : Option String
  openFigs : Nat
  raised : Bool
deriving DecidableEq, Repr

/-- Python `df[x]` column lookup (by label). -/
def dfCol (df : Df) (x : String) : Option Column :=
  df.find? (fun c => c.name = x)

/-- Whether `np.issubdtype(df[x].dtype, ...)` holds for the given class. -/
def colDtypeIs (df : Df) (x : String) (t : Dtype) : Bool :=
  match dfCol df x with
  | some c => c.dtype = t
  | none => false

/-- Shared tail of every drawing branch: on a drawing exception, close the
figure and return null; otherwise run `savefig` (whose own exception is
caught the same way) and close the figure after a successful save. -/
def renderFinish (savefig : Except PyErr String) (dres : Except PyErr Unit) : ChartOutcome :=
  match dres with
  | .error _ => ⟨none, 0, true⟩
  | .ok _ =>
    match savefig with
    | .error _ => ⟨none, 0, true⟩
    | .ok png => ⟨some png, 0, false⟩

/-- `generate_chart(df, chart_type, x, y)`: column prechecks return null
before any figure exists; a recognized chart type draws inside
`try`/`except`; an unrecognized chart type returns null from inside the
`try` with the figure still open (no exception involved). -/
def generate_chart (draw : DrawCall → Except PyErr Unit) (savefig : Except PyErr String)
    (df : Df) (chart_type : String) (x : String) (y : Option String) : ChartOutcome :=
  if x ∉ colNames df then ⟨none, 0, false⟩
  else if (match y with | some yv => decide (yv ∉ colNames df) | none => false) = true then
    ⟨none, 0, false⟩
  else
    if chart_type = "histogram" then
      if colDtypeIs df x Dtype.numeric = false then renderFinish savefig (draw (.countplot x))
      else renderFinish savefig (draw (.histplot x))
    else if chart_type = "scatter" then renderFinish savefig (draw (.scatterplot x y))
    else if chart_type = "bar" then
      match y with
      | some yv =>
        if yv = "" then
          if colDtypeIs df x Dtype.datetime = true then
            renderFinish savefig (draw (.countplotDatetimeStr x))
          else renderFinish savefig (draw (.countplot x))
        else renderFinish savefig (draw (.barplot x yv))
      | none =>
        if colDtypeIs df x Dtype.datetime = true then
          renderFinish savefig (draw (.countplotDatetimeStr x))
        else renderFinish savefig (draw (.countplot x))
    else if chart_type = "countplot" then renderFinish savefig (draw (.countplot x))
    else if chart_type = "line" then renderFinish savefig (draw (.lineplot x y))
    else ⟨none, 1, false⟩

theorem renderFinish_raised {savefig dres}
    (h : (renderFinish savefig dres).raised = true) :
    (renderFinish savefig dres).result = none ∧ (renderFinish savefig dres).openFigs = 0 := by
  rcases dres with e | u
  · exact ⟨rfl, rfl⟩
  · rcases savefig with e | png
    · exact ⟨rfl, rfl⟩
    · exact absurd h (by simp [renderFinish])

/-- C6. Whenever a library call raises during drawing or saving, the
exception is caught: the renderer returns null and the drawing surface is
discarded (no figure stays open); no exception escapes the function. -/
theorem C6_generate_chart_catches (draw : DrawCall → Except PyErr Unit)
    (savefig : Except PyErr String) (df : Df) (chart_type x : String) (y : Option String)
    (h : (generate_chart draw savefig df chart_type x y).raised = true) :
    (generate_chart draw savefig df chart_type x y).result = none ∧
      (generate_chart draw savefig df chart_type x y).openFigs = 0 := by
  rcases y with _ | yv <;>
    unfold generate_chart at h ⊢ <;>
    dsimp only at h ⊢ <;>
    split_ifs at h ⊢ <;>
    first
      | exact renderFinish_raised h
      | exact absurd h (by simp)

/-- A witness running C6 with a drawing backend that always raises. -/
theorem C6_generate_chart_catches_witness :
    ((generate_chart (fun _ => Except.error PyErr.apiError) (Except.ok "png")
        [⟨"amount", Dtype.numeric, []⟩] "histogram" "amount" none).raised = true) ∧
    ((generate_chart (fun _ => Except.error PyErr.apiError) (Except.ok "png")
        [⟨"amount", Dtype.numeric, []⟩] "histogram" "amount" none).result = none ∧
      (generate_chart (fun _ => Except.error PyErr.apiError) (Except.ok "png")
        [⟨"amount", Dtype.numeric, []⟩] "histogram" "amount" none).openFigs = 0) :=
  ⟨by decide,
    C6_generate_chart_catches (fun _ => Except.error PyErr.apiError) (Except.ok "png")
      [⟨"amount", Dtype.numeric, []⟩] "histogram" "amount" none (by decide)⟩

/-! ## C8: the date coercion pre-pass operates on a copy

The session's stored sheet tables live in a heap of references
(`_EXCEL_CACHE` hands the caller a reference to the stored dataframe).
`df = df.copy()` allocates a fresh reference holding a copy of the value,
and every following `df[col] = parsed` assignment targets only that fresh
reference, one column at a time. -/

/-- A heap of dataframes: an allocation bound and the store. References
at or above `next` are unallocated. -/
structure DfHeap where
  next : Nat
  tbl : Nat → Option Df

/-- Read a reference. -/
def heapGet (h : DfHeap) (r : Nat) : Option Df := h.tbl r

/-- Overwrite an existing reference. -/
def heapSet (h : DfHeap) (r : Nat) (v : Df) : DfHeap :=
  ⟨h.next, fun q => if q = r then some v else h.tbl q⟩

/-- Allocate a fresh reference holding `v` (Python `df.copy()`). -/
def heapAlloc (h : DfHeap) (v : Df) : DfHeap × Nat :=
  (⟨h.next + 1, fun q => if q = h.next then some v else h.tbl q⟩, h.next)

/-- Python `df[col] = new_col`: replace the column named `name`. -/
def setColInDf (df : Df) (name : String) (newCol : Column) : Df :=
  df.map (fun c => if c.name = name then newCol else c)

/-- One iteration of the preparation loop on the copy held at `r`: convert
the column in place when it is object-typed and at least 70% of its
non-missing values parse. -/
def prepareStep (parseDate : String → Option Nat) (r : Nat) (acc : DfHeap) (c : Column) :
    DfHeap :=
  if c.dtype = Dtype.obj then
    let parsed := seriesToDatetime parseDate c.cells
    let non_null := (c.cells.filter Cell.notNA).length
    let parsed_non_null := (parsed.filter Cell.notNA).length
    if 0 < non_null ∧ 7 * non_null ≤ 10 * parsed_non_null then
      heapSet acc r (setColInDf ((heapGet acc r).getD []) c.name ⟨c.name, Dtype.datetime, parsed⟩)
    else acc
  else acc

/-- `_prepare_df_for_viz` acting on the heap: copy the argument table into
a fresh reference, then run the per-column loop on the copy. -/
def prepare_df_for_viz_ref (parseDate : String → Option Nat) (h : DfHeap) (src : Nat) :
    DfHeap × Nat :=
  let df := (heapGet h src).getD []
  let ar := heapAlloc h df
  (df.foldl (prepareStep parseDate ar.2) ar.1, ar.2)

theorem heapGet_heapSet_ne {h : DfHeap} {r q : Nat} {v : Df} (hne : q ≠ r) :
    heapGet (heapSet h r v) q = heapGet h q := by
  simp [heapGet, heapSet, hne]

theorem heapGet_heapSet_self {h : DfHeap} {r : Nat} {v : Df} :
    heapGet (heapSet h r v) r = some v := by
  simp [heapGet, heapSet]

theorem foldl_prepareStep_frame (parseDate : String → Option Nat) (r q : Nat) (hne : q ≠ r) :
    ∀ (cols : List Column) (acc : DfHeap),
      heapGet (cols.foldl (prepareStep parseDate r) acc) q = heapGet acc q := by
  intro cols
  induction cols with
  | nil => intro acc; rfl
  | cons c rest ih =>
    intro acc
    rw [List.foldl_cons, ih]
    simp only [prepareStep]
    split_ifs <;> first | rfl | exact heapGet_heapSet_ne hne

theorem prepare_col_name (parseDate : String → Option Nat) (c : Column) :
    (_prepare_col parseDate c).name = c.name := by
  simp only [_prepare_col]
  split_ifs <;> rfl

theorem setColInDf_at (done rest : List Column) (c newCol : Column)
    (hdone : ∀ a ∈ done, a.name ≠ c.name) (hrest : ∀ a ∈ rest, a.name ≠ c.name) :
    setColInDf (done ++ c :: rest) c.name newCol = done ++ newCol :: rest := by
  unfold setColInDf
  rw [List.map_append, List.map_cons, if_pos rfl]
  congr 1
  · conv_rhs => rw [← List.map_id done]
    apply List.map_congr_left
    intro a ha
    simp [hdone a ha]
  · congr 1
    conv_rhs => rw [← List.map_id rest]
    apply List.map_congr_left
    intro a ha
    simp [hrest a ha]

theorem foldl_prepareStep_value (parseDate : String → Option Nat) (r : Nat) :
    ∀ (pending done : List Column) (acc : DfHeap),
      (colNames (done ++ pending)).Nodup →
      heapGet acc r = some (done.map (_prepare_col parseDate) ++ pending) →
      heapGet (pending.foldl (prepareStep parseDate r) acc) r =
        some (done.map (_prepare_col parseDate) ++ pending.map (_prepare_col parseDate)) := by
  intro pending
  induction pending with
  | nil => intro done acc _ hacc; simpa using hacc
  | cons c rest ih =>
    intro done acc hnodup hacc
    have hnames : ∀ a ∈ done, a.name ≠ c.name := by
      intro a ha hcontra
      have h1 : (colNames (done ++ c :: rest)) =
          done.map (·.name) ++ c.name :: rest.map (·.name) := by
        simp [colNames]
      rw [h1] at hnodup
      rcases List.nodup_append.1 hnodup with ⟨_, _, hdisj⟩
      exact hdisj (List.mem_map_of_mem _ ha) (hcontra ▸ List.mem_cons_self _ _)
    have hnamesr : ∀ a ∈ rest, a.name ≠ c.name := by
      intro a ha hcontra
      have h1 : (colNames (done ++ c :: rest)) =
          done.map (·.name) ++ c.name :: rest.map (·.name) := by
        simp [colNames]
      rw [h1] at hnodup
      have h2 := (List.nodup_append.1 hnodup).2.1
      exact (List.nodup_cons.1 h2).1 (hcontra ▸ List.mem_map_of_mem _ ha)
    have hdone' : ∀ a ∈ done.map (_prepare_col parseDate), a.name ≠ c.name := by
      intro a ha
      rcases List.mem_map.1 ha with ⟨b, hb, rfl⟩
      rw [prepare_col_name]
      exact hnames b hb
    have hstep : heapGet (prepareStep parseDate r acc c) r =
        some (done.map (_prepare_col parseDate) ++ _prepare_col parseDate c :: rest) := by
      simp only [prepareStep, _prepare_col]
      split_ifs with h1 h2
      · rw [heapGet_heapSet_self, hacc]
        simp only [Option.getD_some]
        rw [setColInDf_at _ _ _ _ hdone' hnamesr]
      · simpa using hacc
      · simpa using hacc
    rw [List.foldl_cons]
    have hres := ih (done ++ [c]) (prepareStep parseDate r acc c)
      (by simpa [colNames] using hnodup)
      (by rw [hstep]; simp)
    rw [hres]
    simp

/-- C8. The date coercion pre-pass operates on a freshly allocated copy:
every table stored in the heap before the call (in particular the
session's cached sheet dataframe handed to the pre-pass) is unchanged
afterwards, and only the returned request-scoped copy holds the converted
columns (`_prepare_df_for_viz` of the original). -/
theorem C8_prepare_never_mutates_caller (parseDate : String → Option Nat)
    (h : DfHeap) (src : Nat) (df : Df)
    (hwf : ∀ r, h.next ≤ r → heapGet h r = none)
    (hsrc : heapGet h src = some df)
    (hnames : (colNames df).Nodup) :
    (∀ q df', heapGet h q = some df' →
      heapGet (prepare_df_for_viz_ref parseDate h src).1 q = some df') ∧
    (prepare_df_for_viz_ref parseDate h src).2 ≠ src ∧
    heapGet (prepare_df_for_viz_ref parseDate h src).1
      (prepare_df_for_viz_ref parseDate h src).2 =
      some (_prepare_df_for_viz parseDate df) := by
  have hlt : ∀ q df', heapGet h q = some df' → q < h.next := by
    intro q df' hq
    by_contra hcon
    rw [hwf q (Nat.le_of_not_lt hcon)] at hq
    exact Option.noConfusion hq
  have hsrclt : src < h.next := hlt src df hsrc
  have hproj : (prepare_df_for_viz_ref parseDate h src).2 = h.next := by
    simp [prepare_df_for_viz_ref, heapAlloc]
  have hheap : (prepare_df_for_viz_ref parseDate h src).1 =
      List.foldl (prepareStep parseDate h.next)
        ⟨h.next + 1, fun q => if q = h.next then some df else h.tbl q⟩ df := by
    simp [prepare_df_for_viz_ref, heapAlloc, hsrc]
  refine ⟨?_, ?_, ?_⟩
  · intro q df' hq
    have hqlt : q < h.next := hlt q df' hq
    rw [hheap, foldl_prepareStep_frame parseDate h.next q (Nat.ne_of_lt hqlt)]
    simpa [heapGet, Nat.ne_of_lt hqlt] using hq
  · rw [hproj]
    exact fun hcon => absurd (hcon ▸ hsrclt) (Nat.lt_irrefl src)
  · rw [hheap, hproj]
    have := foldl_prepareStep_value parseDate h.next df []
      ⟨h.next + 1, fun q => if q = h.next then some df else h.tbl q⟩
      (by simpa [colNames] using hnames)
      (by simp [heapGet])
    simpa [_prepare_df_for_viz] using this

/-- A concrete heap for the C8 witness: one stored sheet table at
reference 0. -/
def exC8heap : DfHeap :=
  ⟨1, fun r => if r = 0 then some [⟨"when", Dtype.obj, [Cell.str "2021-01-01"]⟩] else none⟩

/-- A witness running C8 on the concrete heap: a parser that parses every
value, so the copy is converted while the stored table stays intact. -/
theorem C8_prepare_never_mutates_caller_witness :
    heapGet (prepare_df_for_viz_ref (fun _ => some 0) exC8heap 0).1 0 =
      some [⟨"when", Dtype.obj, [Cell.str "2021-01-01"]⟩] ∧
    heapGet (prepare_df_for_viz_ref (fun _ => some 0) exC8heap 0).1
        (prepare_df_for_viz_ref (fun _ => some 0) exC8heap 0).2 =
      some (_prepare_df_for_viz (fun _ => some 0)
        [⟨"when", Dtype.obj, [Cell.str "2021-01-01"]⟩]) :=
  ⟨(C8_prepare_never_mutates_caller (fun _ => some 0) exC8heap 0
      [⟨"when", Dtype.obj, [Cell.str "2021-01-01"]⟩]
      (by
        intro r hr
        simp only [exC8heap] at hr
        have : ¬ r = 0 := by omega
        simp [exC8heap, heapGet, this])
      (by simp [exC8heap, heapGet]) (by decide)).1 0
      [⟨"when", Dtype.obj, [Cell.str "2021-01-01"]⟩] (by simp [exC8heap, heapGet]),
   (C8_prepare_never_mutates_caller (fun _ => some 0) exC8heap 0
      [⟨"when", Dtype.obj, [Cell.str "2021-01-01"]⟩]
      (by
        intro r hr
        simp only [exC8heap] at hr
        have : ¬ r = 0 := by omega
        simp [exC8heap, heapGet, this])
      (by simp [exC8heap, heapGet]) (by decide)).2.2⟩

/-! ## The render cache (`src/services/viz_cache.py`)

Two separate namespaces keyed by session id. `store_visualizations` has a
required positional `mode` parameter with no default: a Python call that
omits it raises `TypeError` before the body runs; an omitted argument is
modelled as `none`. -/

/-- One rendered suggestion as returned to the caller
(`models/common_models.py`, `VizConfig`; the unused `hue` field is always
absent and omitted). -/
structure VizCfg where
  chart_type : String
  x : String
  y : Option String
  description : String
  image_base64 : Option String
deriving DecidableEq, Repr

/-- The per-session mapping `{sheet_name: [VizConfig, ...]}` in insertion
order. -/
abbrev VizMap := List (String × List VizCfg)

/-- The two module-level caches `_VIZ_CACHE_MANUAL` and `_VIZ_CACHE_AI`. -/
structure CacheState where
  manualCache : List (String × VizMap)
  aiCache : List (String × VizMap)
deriving DecidableEq, Repr

/-- Python `d.get(k)` on an insertion-ordered dict. -/
def lookupA {α : Type} (m : List (String × α)) (k : String) : Option α :=
  (m.find? (fun p => p.1 = k)).map (·.2)

/-- Python `d[k] = v` on an insertion-ordered dict. -/
def insertA {α : Type} (m : List (String × α)) (k : String) (v : α) : List (String × α) :=
  if m.any (fun p => p.1 = k) then m.map (fun p => if p.1 = k then (p.1, v) else p)
  else m ++ [(k, v)]

/-- `get_cached_visualizations(session_id, mode)`: the two recognized
modes read their namespace; any other mode falls off the end of the
`if`/`elif` chain and returns `None`. -/
def get_cached_visualizations (st : CacheState) (session_id mode : String) : Option VizMap :=
  if mode = "manual" then lookupA st.manualCache session_id
  else if mode = "ai" then lookupA st.aiCache session_id
  else none

/-- `store_visualizations(session_id, data, mode)`: a call omitting the
required `mode` argument (`none`) raises `TypeError`; the two recognized
modes update their namespace; any other mode updates nothing. -/
def store_visualizations (st : CacheState) (session_id : String) (data : VizMap)
    (mode : Option String) : Except PyErr CacheState :=
  match mode with
  | none => .error .typeError
  | some m =>
    if m = "manual" then .ok { st with manualCache := insertA st.manualCache session_id data }
    else if m = "ai" then .ok { st with aiCache := insertA st.aiCache session_id data }
    else .ok st

/-- C10. For any mode other than `"manual"` and `"ai"`, the cache read
returns `None` and the cache store (called with that mode) changes
neither namespace; neither function raises. -/
theorem C10_unknown_mode_is_noop (st : CacheState) (session_id mode : String)
    (data : VizMap) (h : mode ≠ "manual" ∧ mode ≠ "ai") :
    get_cached_visualizations st session_id mode = none ∧
    store_visualizations st session_id data (some mode) = .ok st := by
  constructor
  · unfold get_cached_visualizations
    rw [if_neg h.1, if_neg h.2]
  · show (if mode = "manual" then _ else if mode = "ai" then _ else Except.ok st) = _
    rw [if_neg h.1, if_neg h.2]

/-- A witness running C10 on a populated cache with the mode `"auto"`. -/
theorem C10_unknown_mode_is_noop_witness :
    (("auto" : String) ≠ "manual" ∧ ("auto" : String) ≠ "ai") ∧
    (get_cached_visualizations ⟨[("s", [("Sheet1", [])])], [("s", [])]⟩ "s" "auto" = none ∧
      store_visualizations ⟨[("s", [("Sheet1", [])])], [("s", [])]⟩ "s" [] (some "auto") =
        .ok ⟨[("s", [("Sheet1", [])])], [("s", [])]⟩) :=
  ⟨⟨by decide, by decide⟩,
    C10_unknown_mode_is_noop ⟨[("s", [("Sheet1", [])])], [("s", [])]⟩ "s" "auto" []
      ⟨by decide, by decide⟩⟩

/-! ## The all-sheets coordinator `suggest_visualizations_for_all_sheets`

Source: `src/services/viz_service.py` lines 322–456 (mode `"ai"`). The
oracle environment bundles the collaborators; the returned `Nat` counts
how many times the oracle strategy (`ask_llm_for_visualizations`, one
invocation per sheet) was entered, to make "no recomputation" visible. -/

/-- The external collaborators of the pipeline. -/
structure VizEnv where
  client : Bool
  groqCall : Except PyErr String
  jloads : String → Option PyVal
  parseDate : String → Option Nat
  draw : DrawCall → Except PyErr Unit
  savefig : Except PyErr String

/-- One flattened `(sheet_name, df, chart_type, x, y, description)` chart
task. -/
structure RenderTask where
  sheet : String
  df : Df
  chart_type : String
  x : String
  y : Option String
  desc : String
deriving DecidableEq, Repr

/-- The tasks contributed by one sheet: prepare, suggest, apply the
optional caller-supplied per-sheet chart-type allow-list, flatten. -/
def sheetTasks (env : VizEnv) (user_filters : Option (List (String × List String)))
    (p : String × Df) : List RenderTask :=
  let df := _prepare_df_for_viz env.parseDate p.2
  let sugs0 : List Suggestion := _get_viz_suggestions_for_df env.client env.groqCall
    env.jloads env.parseDate df
  let sugs : List Suggestion :=
    match user_filters with
    | some uf =>
      match lookupA uf p.1 with
      | some allowed => sugs0.filter (fun s => s.chart_type ∈ allowed)
      | none => sugs0
    | none => sugs0
  sugs.map (fun s => (⟨p.1, df, s.chart_type, s.x, s.y, s.description⟩ : RenderTask))

/-- Append one rendered result under its originating sheet, preserving
first-appearance sheet order and per-sheet task order. -/
def addResult (m : VizMap) (sheet : String) (v : VizCfg) : VizMap :=
  if m.any (fun p => p.1 = sheet) then
    m.map (fun p => if p.1 = sheet then (p.1, p.2 ++ [v]) else p)
  else m ++ [(sheet, [v])]

/-- Render all tasks (each through `generate_chart`, as
`_render_chart_process` does in a worker) and regroup by sheet. -/
def runTasks (env : VizEnv) (tasks : List RenderTask) : VizMap :=
  tasks.foldl (fun m t =>
    addResult m t.sheet
      ⟨t.chart_type, t.x, t.y, t.desc,
        (generate_chart env.draw env.savefig t.df t.chart_type t.x t.y).result⟩) []

/-- The body of `suggest_visualizations_for_all_sheets` past the cache
check: look up the session's sheets (raising `KeyError` when absent or
falsy), flatten all tasks, store-and-return; the zero-task branch calls
`store_visualizations(session_id, {})` without the required `mode`
argument. -/
def suggestAllCompute (env : VizEnv) (excel : Option (List (String × Df)))
    (st : CacheState) (session_id : String)
    (user_filters : Option (List (String × List String))) :
    Except PyErr (VizMap × CacheState × Nat) :=
  match excel with
  | none => .error .keyError
  | some sheet_dfs =>
    if sheet_dfs.isEmpty then .error .keyError
    else
      let tasks := sheet_dfs.bind (sheetTasks env user_filters)
      if tasks.isEmpty then
        match store_visualizations st session_id [] none with
        | .error e => .error e
        | .ok st' => .ok ([], st', sheet_dfs.length)
      else
        let final := runTasks env tasks
        match store_visualizations st session_id final (some "ai") with
        | .error e => .error e
        | .ok st' => .ok (final, st', sheet_dfs.length)

/-- `suggest_visualizations_for_all_sheets(session_id, user_filters)`:
return a truthy cached entry for `(session, "ai")` verbatim before any
work; otherwise compute. -/
def suggest_visualizations_for_all_sheets (env : VizEnv)
    (excel : Option (List (String × Df))) (st : CacheState) (session_id : String)
    (user_filters : Option (List (String × List String))) :
    Except PyErr (VizMap × CacheState × Nat) :=
  match get_cached_visualizations st session_id "ai" with
  | some c =>
    if c.isEmpty then suggestAllCompute env excel st session_id user_filters
    else .ok (c, st, 0)
  | none => suggestAllCompute env excel st session_id user_filters

theorem lookupA_map_update {α : Type} (m : List (String × α)) (k : String) (v : α)
    (hany : m.any (fun p => p.1 = k) = true) :
    lookupA (m.map (fun p => if p.1 = k then (p.1, v) else p)) k = some v := by
  induction m with
  | nil => simp at hany
  | cons p t ih =>
    by_cases hpk : p.1 = k
    · simp [lookupA, List.find?, hpk]
    · have ht : t.any (fun p => p.1 = k) = true := by
        simpa [List.any_cons, hpk] using hany
      simpa [lookupA, List.find?, hpk] using ih ht

theorem lookupA_append_fresh {α : Type} (m : List (String × α)) (k : String) (v : α)
    (hnone : m.any (fun p => p.1 = k) = false) :
    lookupA (m ++ [(k, v)]) k = some v := by
  induction m with
  | nil => simp [lookupA, List.find?]
  | cons p t ih =>
    have hpk : ¬ p.1 = k := by
      intro hcon
      simp [List.any_cons, hcon] at hnone
    have ht : t.any (fun p => p.1 = k) = false := by
      simpa [List.any_cons, hpk] using hnone
    simpa [lookupA, List.find?, hpk] using ih ht

theorem lookupA_insertA_self {α : Type} (m : List (String × α)) (k : String) (v : α) :
    lookupA (insertA m k v) k = some v := by
  unfold insertA
  by_cases hany : m.any (fun p => p.1 = k) = true
  · rw [if_pos hany]
    exact lookupA_map_update m k v hany
  · rw [if_neg hany]
    exact lookupA_append_fresh m k v (Bool.eq_false_iff.2 hany)

theorem addResult_ne_nil (m : VizMap) (sheet : String) (v : VizCfg) :
    addResult m sheet v ≠ [] := by
  unfold addResult
  split_ifs with hany
  · intro hcon
    rcases m with _ | ⟨p, t⟩
    · simp at hany
    · exact List.noConfusion hcon
  · intro hcon
    rcases m with _ | ⟨p, t⟩ <;> exact List.noConfusion hcon

theorem runTasks_ne_nil (env : VizEnv) (tasks : List RenderTask) (h : tasks ≠ []) :
    runTasks env tasks ≠ [] := by
  have hfold : ∀ (ts : List RenderTask) (m : VizMap), m ≠ [] →
      ts.foldl (fun m t =>
        addResult m t.sheet
          ⟨t.chart_type, t.x, t.y, t.desc,
            (generate_chart env.draw env.savefig t.df t.chart_type t.x t.y).result⟩) m ≠ [] := by
    intro ts
    induction ts with
    | nil => intro m hm; simpa using hm
    | cons t rest ih =>
      intro m _
      rw [List.foldl_cons]
      exact ih _ (addResult_ne_nil _ _ _)
  rcases tasks with _ | ⟨t, rest⟩
  · exact absurd rfl h
  · unfold runTasks
    rw [List.foldl_cons]
    exact hfold rest _ (addResult_ne_nil _ _ _)

theorem store_ai_eq (st : CacheState) (sid : String) (data : VizMap) :
    store_visualizations st sid data (some "ai") =
      .ok { st with aiCache := insertA st.aiCache sid data } := by
  rfl

theorem suggestAllCompute_ok {env : VizEnv} {excel : Option (List (String × Df))}
    {st : CacheState} {session_id : String}
    {uf : Option (List (String × List String))}
    {res : VizMap} {st₁ : CacheState} {n : Nat}
    (h : suggestAllCompute env excel st session_id uf = .ok (res, st₁, n)) :
    res ≠ [] ∧ st₁ = { st with aiCache := insertA st.aiCache session_id res } := by
  unfold suggestAllCompute at h
  rcases excel with _ | sheet_dfs
  · exact Except.noConfusion h
  · simp only at h
    by_cases hemp : sheet_dfs.isEmpty
    · rw [if_pos hemp] at h
      exact Except.noConfusion h
    · rw [if_neg hemp] at h
      by_cases htasks : (sheet_dfs.bind (sheetTasks env uf)).isEmpty
      · rw [if_pos htasks] at h
        simp only [store_visualizations] at h
        exact Except.noConfusion h
      · rw [if_neg htasks] at h
        simp only [store_ai_eq] at h
        have h' := Except.ok.inj h
        have h1 : runTasks env (sheet_dfs.bind (sheetTasks env uf)) = res :=
          congrArg Prod.fst h'
        have h2 : ({ st with
              aiCache := insertA st.aiCache session_id
                  (runTasks env (sheet_dfs.bind (sheetTasks env uf))) } : CacheState) =
            st₁ :=
          congrArg (fun p => p.2.1) h'
        subst h1
        refine ⟨runTasks_ne_nil env _ ?_, h2.symm⟩
        intro hcon
        rw [hcon] at htasks
        simp at htasks

/-- C3. If a call to the all-sheets path returns successfully (from the
cache or by computing and storing), then a second call for the same
session and mode — under any oracle, parser or renderer behaviour and any
sheet store — returns a bit-identical result, leaves the cache untouched,
and performs zero oracle invocations: it is a pure cache hit. -/
theorem C3_second_call_is_pure_cache_hit (env₁ env₂ : VizEnv)
    (excel₁ excel₂ : Option (List (String × Df))) (st : CacheState) (session_id : String)
    (uf₁ uf₂ : Option (List (String × List String)))
    (res : VizMap) (st₁ : CacheState) (n : Nat)
    (h : suggest_visualizations_for_all_sheets env₁ excel₁ st session_id uf₁ =
      .ok (res, st₁, n)) :
    suggest_visualizations_for_all_sheets env₂ excel₂ st₁ session_id uf₂ =
      .ok (res, st₁, 0) := by
  have hcompute : suggestAllCompute env₁ excel₁ st session_id uf₁ = .ok (res, st₁, n) →
      suggest_visualizations_for_all_sheets env₂ excel₂ st₁ session_id uf₂ =
        .ok (res, st₁, 0) := by
    intro hc
    obtain ⟨hne, rfl⟩ := suggestAllCompute_ok hc
    unfold suggest_visualizations_for_all_sheets
    have hcache : get_cached_visualizations
        { st with aiCache := insertA st.aiCache session_id res } session_id "ai" =
        some res := by
      unfold get_cached_visualizations
      rw [if_neg (by decide : ¬ ("ai" : String) = "manual"),
        if_pos (rfl : ("ai" : String) = "ai")]
      exact lookupA_insertA_self st.aiCache session_id res
    rw [hcache]
    dsimp only
    rw [if_neg (by simpa [List.isEmpty_eq_true] using hne)]
  unfold suggest_visualizations_for_all_sheets at h
  rcases hc : get_cached_visualizations st session_id "ai" with _ | c
  · rw [hc] at h
    exact hcompute h
  · rw [hc] at h
    dsimp only at h
    by_cases hce : c.isEmpty
    · rw [if_pos hce] at h
      exact hcompute h
    · rw [if_neg hce] at h
      have := Except.ok.inj h
      obtain ⟨h1, h2, h3⟩ : c = res ∧ st = st₁ ∧ 0 = n :=
        ⟨congrArg Prod.fst this, congrArg Prod.fst (congrArg Prod.snd this),
          congrArg Prod.snd (congrArg Prod.snd this)⟩
      subst h1
      subst h2
      unfold suggest_visualizations_for_all_sheets
      rw [hc]
      dsimp only
      rw [if_neg hce]

instance {ε α : Type} [DecidableEq ε] [DecidableEq α] : DecidableEq (Except ε α) :=
  fun x y =>
    match x, y with
    | .error a, .error b =>
      if h : a = b then isTrue (by rw [h]) else isFalse (fun hc => h (Except.error.inj hc))
    | .error _, .ok _ => isFalse (fun hc => Except.noConfusion hc)
    | .ok _, .error _ => isFalse (fun hc => Except.noConfusion hc)
    | .ok a, .ok b =>
      if h : a = b then isTrue (by rw [h]) else isFalse (fun hc => h (Except.ok.inj hc))

/-- A concrete environment for the C3 witness: no oracle credential, a
drawing backend that raises (so images come back null but the pipeline
still succeeds). -/
def exC3env : VizEnv :=
  ⟨false, Except.ok "", fun _ => none, fun _ => none,
    fun _ => Except.error PyErr.apiError, Except.ok "img"⟩

/-- The loaded sheets for the C3 witness. -/
def exC3excel : Option (List (String × Df)) :=
  some [("Sheet1", [⟨"amount", Dtype.numeric, []⟩])]

/-- The result computed and cached by the first C3 call. -/
def exC3res : VizMap :=
  [("Sheet1",
    [⟨"histogram", "amount", none, "Distribution of numeric column 'amount'.", none⟩])]

/-- The cache state after the first C3 call. -/
def exC3st : CacheState := ⟨[], [("s", exC3res)]⟩

/-- A witness for C3: the first call computes, stores and reports one
oracle invocation; the theorem then forces the second call to be a pure
cache hit with zero oracle invocations. -/
theorem C3_second_call_is_pure_cache_hit_witness :
    suggest_visualizations_for_all_sheets exC3env exC3excel ⟨[], []⟩ "s" none =
      .ok (exC3res, exC3st, 1) ∧
    suggest_visualizations_for_all_sheets exC3env exC3excel exC3st "s" none =
      .ok (exC3res, exC3st, 0) :=
  ⟨by decide,
    C3_second_call_is_pure_cache_hit exC3env exC3env exC3excel exC3excel ⟨[], []⟩ "s"
      none none exC3res exC3st 1 (by decide)⟩

/-- The C2 scenario: a loaded session whose single sheet has no columns,
so no suggestion and no chart task is produced anywhere. -/
def exC2excel : Option (List (String × Df)) := some [("Sheet1", [])]

/-- C2 (the code at the claimed behaviour's failing input). With zero
chart tasks across all sheets, the code reaches
`store_visualizations(session_id, {})` — which omits the required `mode`
parameter — and therefore raises `TypeError` instead of storing and
returning an empty mapping. -/
theorem C2_zero_tasks_raises_typeerror :
    suggest_visualizations_for_all_sheets exC3env exC2excel ⟨[], []⟩ "s" none =
      .error PyErr.typeError := by
  decide

end MultiViz
